import Mathlib

/-!
Shallow embedding of the human-in-the-loop workflow orchestration engine of
deal-copilot (`src/deal_copilot/api/main.py`): the `WorkflowState` record,
the control operations continue / refine / skip / cancel, and the SSE event
generator of `stream_workflow_step`, together with proofs of the spec's
claims about them.
-/

namespace DealCopilot

/-- A stage's opaque result value; the engine never inspects it. -/
abbrev Output := String

/-- Mirrors `WorkflowState.ALL_STEPS` from `main.py`: every known stage name. -/
def ALL_STEPS : List String := ["deep_research", "data_room", "risk_scanner", "ic_memo"]

/-- Embeds the mutable fields of the Python `WorkflowState` (`main.py`
lines 92-132). Informational fields (`report_id`, `company_info`,
`agent_type`, `created_at`, the remembered selection flags) carry no
engine semantics and are omitted; `step_status` and `step_outputs` are
modelled as total functions on stage names (the Python dicts are only ever
read and written at known stage-name keys; an absent output is `none`). -/
structure WorkflowState where
  steps : List String
  current_step : Nat
  step_status : String → String
  step_outputs : String → Option Output
  awaiting_review : Bool
  cancelled : Bool

/-- Embeds `WorkflowState.__init__`: builds the stage sequence from the selected
agents - `deep_research` if selected, `data_room` if selected AND at least
one file was uploaded, then always `risk_scanner` and `ic_memo` - and
pre-marks each deselected optional stage `skipped` (all other stages start
`pending`). `files` is the number of processed uploads (`len(files)`). -/
def WorkflowState.init (files : Nat) (run_deep_research run_data_room : Bool) :
    WorkflowState :=
  let has_files := decide (0 < files)
  let run_droom := run_data_room && has_files
  { steps :=
      (if run_deep_research then ["deep_research"] else []) ++
      (if run_droom then ["data_room"] else []) ++
      ["risk_scanner", "ic_memo"]
    current_step := 0
    step_status := fun t =>
      if run_deep_research = false ∧ t = "deep_research" then "skipped"
      else if run_droom = false ∧ t = "data_room" then "skipped"
      else "pending"
    step_outputs := fun _ => none
    awaiting_review := false
    cancelled := false }

/-- Embeds `WorkflowState.get_current_step_name`: the stage at `current_step`, or
the string `"completed"` once the cursor is at or past the end of `steps`. -/
def WorkflowState.get_current_step_name (s : WorkflowState) : String :=
  s.steps.getD s.current_step "completed"

/-- An `HTTPException(status_code, detail)` raised by an endpoint. -/
structure HTTPError where
  status_code : Nat
  detail : String
deriving DecidableEq

/-- The `completed_reports[workflow_id]` record stored when the last stage
is approved: the accumulated outputs of the four known stages. -/
structure FinalReport where
  deep_research : Option Output
  data_room : Option Output
  risk_scanner : Option Output
  ic_memo : Option Output
deriving DecidableEq

/-- Lines 1409-1414 of `main.py`: the final report is read off the
workflow's accumulated `step_outputs`. -/
def mkFinalReport (outs : String → Option Output) : FinalReport :=
  { deep_research := outs "deep_research"
    data_room := outs "data_room"
    risk_scanner := outs "risk_scanner"
    ic_memo := outs "ic_memo" }

/-- Body returned by the `continue` endpoint. -/
inductive ContinueResp
  | completed (final : FinalReport)
  | continuing (next_step : String)
deriving DecidableEq

/-- Embeds `continue_workflow` (`main.py` 1388-1431): rejected with a 400 when the
workflow is not awaiting review; otherwise advances the cursor, clears the
flag and, when the cursor has passed the end of `steps`, records the
accumulated outputs as the final report. Returns the endpoint's response
(or error) together with the state after the call; a rejection raises
before any mutation, so it returns the input state unchanged. -/
def continue_workflow (s : WorkflowState) :
    Except HTTPError ContinueResp × WorkflowState :=
  if s.awaiting_review = false then
    (.error ⟨400, "Workflow is not awaiting review"⟩, s)
  else
    let s' : WorkflowState :=
      { s with current_step := s.current_step + 1, awaiting_review := false }
    if s'.get_current_step_name = "completed" then
      (.ok (.completed (mkFinalReport s'.step_outputs)), s')
    else
      (.ok (.continuing s'.get_current_step_name), s')

/-- Body returned by the `refine` endpoint; `feedback_received` merely
echoes the request's feedback. -/
structure RefineResp where
  step : String
  feedback_received : String
deriving DecidableEq

/-- Embeds `refine_step` (`main.py` 1438-1470): rejects only a stage name outside
`ALL_STEPS`; for any known stage name (current or not) it sets that stage's
status to `"refining"`, clears `awaiting_review` and deletes the stored
output. The feedback is echoed in the response and is not written into the
workflow state. -/
def refine_step (s : WorkflowState) (step_name feedback : String) :
    Except HTTPError RefineResp × WorkflowState :=
  if step_name ∉ ALL_STEPS then
    (.error ⟨400, "Invalid step: " ++ step_name⟩, s)
  else
    let s' : WorkflowState :=
      { s with
        step_status := fun t => if t = step_name then "refining" else s.step_status t
        awaiting_review := false
        step_outputs := fun t => if t = step_name then none else s.step_outputs t }
    (.ok ⟨step_name, feedback⟩, s')

/-- Body returned by the `skip` endpoint. -/
structure SkipResp where
  skipped_step : String
  next_step : String
deriving DecidableEq

/-- Embeds `skip_step` (`main.py` 1473-1498): rejects a stage name different from
`get_current_step_name`; otherwise marks that stage `"skipped"`, advances
the cursor by one and clears `awaiting_review`, touching no output. -/
def skip_step (s : WorkflowState) (step_name : String) :
    Except HTTPError SkipResp × WorkflowState :=
  if step_name ≠ s.get_current_step_name then
    (.error ⟨400, "Cannot skip " ++ step_name ++ ", current step is " ++
      s.get_current_step_name⟩, s)
  else
    let s' : WorkflowState :=
      { s with
        step_status := fun t => if t = step_name then "skipped" else s.step_status t
        current_step := s.current_step + 1
        awaiting_review := false }
    (.ok ⟨step_name, s'.get_current_step_name⟩, s')

/-- Body returned by the `cancel` endpoint. -/
structure CancelResp where
  status : String
deriving DecidableEq

/-- Embeds `cancel_workflow` (`main.py` 1501-1529): always succeeds; sets the
`cancelled` flag, clears `awaiting_review`, and marks the current stage
`"cancelled"` unless the cursor is already past the end. -/
def cancel_workflow (s : WorkflowState) : Except HTTPError CancelResp × WorkflowState :=
  let s1 : WorkflowState := { s with cancelled := true, awaiting_review := false }
  let cur := s1.get_current_step_name
  let s2 : WorkflowState :=
    if cur ≠ "completed" then
      { s1 with step_status := fun t => if t = cur then "cancelled" else s1.step_status t }
    else s1
  (.ok ⟨"cancelled"⟩, s2)

/-- Outcome of the current stage's Step Executor run: a returned value
(`none` models a falsy `None` or empty result - the code's `if output:`
test) or a raised exception with its message. -/
inductive ExecResult
  | success (out : Option Output)
  | raise (msg : String)
deriving DecidableEq

/-- One SSE event of the stream endpoint. `step_complete` carries the
payload's hard-coded `awaiting_review` field and the `output_preview`. -/
inductive Event
  | status (step : String)
  | chunk (content : String)
  | step_complete (step : String) (awaiting_review : Bool) (output_preview : Option String)
  | error (step : String) (message : String)
deriving DecidableEq

/-- Models `str(output)[:500]` of the `step_complete` payload. -/
def output_preview (o : Output) : String := o.take 500

/-- Lines 1066-1070 of `main.py`: a truthy executor result is stored, the
stage is marked `"completed"`, and the workflow parks awaiting review. -/
def storeOutput (s : WorkflowState) (step_name : String) (o : Output) : WorkflowState :=
  { s with
    step_outputs := fun t => if t = step_name then some o else s.step_outputs t
    step_status := fun t => if t = step_name then "completed" else s.step_status t
    awaiting_review := true }

/-- The SSE `event_generator` of `stream_workflow_step` (`main.py`
992-1092) on a run that is not cancelled mid-stream: a `status` event, one
`chunk` per fragment in emission order, then a single terminal event.
`frags` are the fragments the executor pushes through the stream queue
before finishing. A stage name outside `ALL_STEPS` matches no dispatch
branch (`output_task = None`): no chunks, a `step_complete` with no
preview, state untouched. On a truthy result the output is stored
(`storeOutput`); on a falsy result or an exception the state is untouched -
no code path assigns a `"failed"` status. The `step_complete` payload
always reports `awaiting_review` as `True`. -/
def stream_step_run (s : WorkflowState) (frags : List String) (res : ExecResult) :
    List Event × WorkflowState :=
  let step_name := s.get_current_step_name
  if step_name ∈ ALL_STEPS then
    match res with
    | .success (some o) =>
        (Event.status step_name :: (frags.map Event.chunk ++
          [Event.step_complete step_name true (some (output_preview o))]),
         storeOutput s step_name o)
    | .success none =>
        (Event.status step_name :: (frags.map Event.chunk ++
          [Event.step_complete step_name true none]), s)
    | .raise msg =>
        (Event.status step_name :: (frags.map Event.chunk ++
          [Event.error step_name msg]), s)
  else
    ([Event.status step_name, Event.step_complete step_name true none], s)

/-- One engine-visible mutation of a workflow: a full (uncancelled) run of
the stream endpoint for the current stage, or one control operation. The
rejected branches of the control operations return the state unchanged. -/
inductive WfOp
  | completeStage (frags : List String) (res : ExecResult)
  | opContinue
  | opRefine (step_name feedback : String)
  | opSkip (step_name : String)
  | opCancel
deriving DecidableEq

/-- State transition of one `WfOp`. -/
def applyOp (s : WorkflowState) : WfOp → WorkflowState
  | .completeStage frags res => (stream_step_run s frags res).2
  | .opContinue => (continue_workflow s).2
  | .opRefine st fb => (refine_step s st fb).2
  | .opSkip st => (skip_step s st).2
  | .opCancel => (cancel_workflow s).2

/-- A workflow state reached by a sequence of operations. -/
def runOps (s : WorkflowState) (ops : List WfOp) : WorkflowState :=
  ops.foldl applyOp s

/-- Position of the SSE consumer loop of `stream_workflow_step` between
suspension points: still polling the stream queue with `pending` fragments
not yet consumed; past the `break` (the sentinel was consumed, the output
is about to be awaited and stored) - the code re-checks `state.cancelled`
only at the top of the polling loop, not here; or terminated. -/
inductive CPhase
  | looping (pending : List String)
  | afterBreak
  | finished
deriving DecidableEq

/-- A configuration of one in-flight stream run: the shared workflow state,
the stage name captured when the generator started, the executor's eventual
outcome, and the consumer's position. -/
structure StreamConfig where
  wf : WorkflowState
  step_name : String
  res : ExecResult
  phase : CPhase

/-- One interleaving action: either the SSE consumer advances one step, or
the environment serves a `cancel` request on the same workflow. -/
inductive StreamAct
  | consume
  | cancelEnv
deriving DecidableEq

/-- Small-step semantics of the consumer loop of `stream_workflow_step`
interleaved with the `cancel` endpoint. A `consume` in the polling phase
first checks `wf.cancelled` (top of the `while` loop): if set, it emits the
cancellation `error` event and terminates without storing anything;
otherwise it forwards the next fragment as a `chunk`, or on the sentinel
moves past the `break`. Past the `break` (`afterBreak`) the result is
awaited and applied with no further `cancelled` check: a truthy result is
stored via `storeOutput`, a falsy one leaves the state untouched, an
exception emits the `error` event. `cancelEnv` applies `cancel_workflow`
to the shared state. Each step returns the events it emits. -/
def streamStep (c : StreamConfig) : StreamAct → StreamConfig × List Event
  | .cancelEnv => ({ c with wf := (cancel_workflow c.wf).2 }, [])
  | .consume =>
    match c.phase with
    | .looping pending =>
        if c.wf.cancelled then
          ({ c with phase := .finished },
           [Event.error c.step_name "Workflow cancelled by user"])
        else
          match pending with
          | f :: rest => ({ c with phase := .looping rest }, [Event.chunk f])
          | [] => ({ c with phase := .afterBreak }, [])
    | .afterBreak =>
        match c.res with
        | .success (some o) =>
            ({ c with wf := storeOutput c.wf c.step_name o, phase := .finished },
             [Event.step_complete c.step_name true (some (output_preview o))])
        | .success none =>
            ({ c with phase := .finished },
             [Event.step_complete c.step_name true none])
        | .raise msg =>
            ({ c with phase := .finished }, [Event.error c.step_name msg])
    | .finished => (c, [])

/-- Runs a schedule of interleaved actions, concatenating emitted events. -/
def runStream (c : StreamConfig) : List StreamAct → StreamConfig × List Event
  | [] => (c, [])
  | a :: rest =>
      ((runStream (streamStep c a).1 rest).1,
       (streamStep c a).2 ++ (runStream (streamStep c a).1 rest).2)

/-! ### Helper lemmas -/

theorem get_current_step_name_of_lt (s : WorkflowState)
    (h : s.current_step < s.steps.length) :
    s.get_current_step_name = s.steps[s.current_step] := by
  unfold WorkflowState.get_current_step_name
  simp [List.getD, List.getElem?_eq_getElem h]

theorem get_current_step_name_past_end (s : WorkflowState)
    (h : s.steps.length ≤ s.current_step) :
    s.get_current_step_name = "completed" := by
  unfold WorkflowState.get_current_step_name
  simp [List.getD, List.getElem?_eq_none h]

/-- A two-stage workflow parked awaiting review on its last stage, used as
a concrete input for witnesses. -/
def sampleAwaiting : WorkflowState :=
  { steps := ["risk_scanner", "ic_memo"]
    current_step := 1
    step_status := fun t =>
      if t = "ic_memo" then "completed"
      else if t = "risk_scanner" then "completed" else "pending"
    step_outputs := fun t =>
      if t = "ic_memo" then some "memo text"
      else if t = "risk_scanner" then some "risk report" else none
    awaiting_review := true
    cancelled := false }

/-! ### C1 - continue advances the cursor and completes the workflow -/

/-- C1: for every workflow with `awaitingReview` true, `continue` increments
`current_step` by exactly 1 and sets `awaitingReview` to false; if the new
cursor equals the length of the stage list, the workflow's derived status
becomes `"completed"` and the accumulated step outputs become the final
result. -/
theorem continue_advances_and_completes (s : WorkflowState)
    (h : s.awaiting_review = true) :
    (continue_workflow s).2.current_step = s.current_step + 1 ∧
    (continue_workflow s).2.awaiting_review = false ∧
    (s.current_step + 1 = s.steps.length →
      (continue_workflow s).2.get_current_step_name = "completed" ∧
      (continue_workflow s).1 =
        Except.ok (ContinueResp.completed (mkFinalReport s.step_outputs))) := by
  have hs : ¬ (s.awaiting_review = false) := by simp [h]
  unfold continue_workflow
  simp only [if_neg hs]
  set s' : WorkflowState :=
    { s with current_step := s.current_step + 1, awaiting_review := false } with hs'
  refine ⟨?_, ?_, ?_⟩
  · split <;> rfl
  · split <;> rfl
  · intro hlen
    have hdone : s'.get_current_step_name = "completed" := by
      apply get_current_step_name_past_end
      simp [hs', ← hlen]
    refine ⟨?_, ?_⟩
    · split <;> exact hdone
    · rw [if_pos hdone]

/-- Witness for C1 at a concrete awaiting-review workflow on its last
stage. -/
theorem continue_advances_and_completes_witness :
    sampleAwaiting.awaiting_review = true ∧
    (continue_workflow sampleAwaiting).2.current_step =
      sampleAwaiting.current_step + 1 ∧
    (continue_workflow sampleAwaiting).2.awaiting_review = false ∧
    (continue_workflow sampleAwaiting).2.get_current_step_name = "completed" ∧
    (continue_workflow sampleAwaiting).1 =
      Except.ok (ContinueResp.completed (mkFinalReport sampleAwaiting.step_outputs)) :=
  ⟨rfl,
   (continue_advances_and_completes sampleAwaiting rfl).1,
   (continue_advances_and_completes sampleAwaiting rfl).2.1,
   ((continue_advances_and_completes sampleAwaiting rfl).2.2 rfl).1,
   ((continue_advances_and_completes sampleAwaiting rfl).2.2 rfl).2⟩

/-! ### C2 - continue without awaiting review is rejected, state unchanged -/

/-- C2: for every workflow whose `awaitingReview` flag is false, `continue`
is rejected with an HTTP 400 error and returns the workflow state exactly
as it was (cursor, statuses, outputs, flags all unchanged). -/
theorem continue_not_awaiting_rejected (s : WorkflowState)
    (h : s.awaiting_review = false) :
    continue_workflow s =
      (Except.error ⟨400, "Workflow is not awaiting review"⟩, s) := by
  unfold continue_workflow
  rw [if_pos h]

/-- Witness for C2 at a freshly created workflow ("awaiting review" starts
false). -/
theorem continue_not_awaiting_rejected_witness :
    (WorkflowState.init 0 true true).awaiting_review = false ∧
    continue_workflow (WorkflowState.init 0 true true) =
      (Except.error ⟨400, "Workflow is not awaiting review"⟩,
        WorkflowState.init 0 true true) :=
  ⟨rfl, continue_not_awaiting_rejected (WorkflowState.init 0 true true) rfl⟩

/-! ### C7 - skip is valid exactly for the current stage -/

/-- C7: for a workflow whose cursor still points into `steps`, `skip` of
any stage other than the one at the cursor is rejected with an error and
returns the state unchanged; `skip` of the stage at the cursor marks it
`"skipped"`, records no output (the outputs map is untouched), clears
`awaitingReview` and increments the cursor by exactly 1. -/
theorem skip_current_stage_only (s : WorkflowState) (step_name : String)
    (hcur : s.current_step < s.steps.length) :
    (step_name ≠ s.steps[s.current_step] →
      skip_step s step_name =
        (Except.error ⟨400, "Cannot skip " ++ step_name ++ ", current step is " ++
          s.get_current_step_name⟩, s)) ∧
    (step_name = s.steps[s.current_step] →
      (∃ resp, (skip_step s step_name).1 = Except.ok resp) ∧
      (skip_step s step_name).2.step_status step_name = "skipped" ∧
      (skip_step s step_name).2.step_outputs = s.step_outputs ∧
      (skip_step s step_name).2.awaiting_review = false ∧
      (skip_step s step_name).2.current_step = s.current_step + 1) := by
  have hname := get_current_step_name_of_lt s hcur
  constructor
  · intro hne
    have : step_name ≠ s.get_current_step_name := by rw [hname]; exact hne
    unfold skip_step
    rw [if_pos this]
  · intro heq
    have heq' : ¬ (step_name ≠ s.get_current_step_name) := by
      rw [hname]; simp [heq]
    unfold skip_step
    rw [if_neg heq']
    refine ⟨⟨_, rfl⟩, by simp, rfl, rfl, rfl⟩

/-- Witness for C7: on a fresh three-stage workflow (current stage
`deep_research`), skipping the non-current `ic_memo` is rejected with the
state unchanged, and skipping the current `deep_research` marks it skipped
and advances the cursor. -/
theorem skip_current_stage_only_witness :
    (WorkflowState.init 0 true true).current_step <
      (WorkflowState.init 0 true true).steps.length ∧
    skip_step (WorkflowState.init 0 true true) "ic_memo" =
      (Except.error ⟨400, "Cannot skip " ++ "ic_memo" ++ ", current step is " ++
        (WorkflowState.init 0 true true).get_current_step_name⟩,
        WorkflowState.init 0 true true) ∧
    (skip_step (WorkflowState.init 0 true true) "deep_research").2.step_status
      "deep_research" = "skipped" ∧
    (skip_step (WorkflowState.init 0 true true) "deep_research").2.current_step =
      (WorkflowState.init 0 true true).current_step + 1 :=
  ⟨by decide,
   (skip_current_stage_only (WorkflowState.init 0 true true) "ic_memo"
      (by decide)).1 (by decide),
   ((skip_current_stage_only (WorkflowState.init 0 true true) "deep_research"
      (by decide)).2 (by decide)).2.1,
   ((skip_current_stage_only (WorkflowState.init 0 true true) "deep_research"
      (by decide)).2 (by decide)).2.2.2.2⟩

/-! ### C4 - refine does not check the current stage (corrected) -/

/-- Counterexample to C4 as stated: on `sampleAwaiting` the current stage
is `"ic_memo"`, yet `refine` of the non-current stage `"deep_research"` is
accepted (returns ok, not an error) and mutates the state; moreover the
resulting state is identical whatever feedback string is supplied, so the
feedback is not threaded into the workflow state at all. -/
theorem refine_noncurrent_accepted :
    sampleAwaiting.get_current_step_name = "ic_memo" ∧
    "deep_research" ≠ sampleAwaiting.get_current_step_name ∧
    (refine_step sampleAwaiting "deep_research" "redo it").1 =
      Except.ok ⟨"deep_research", "redo it"⟩ ∧
    (refine_step sampleAwaiting "deep_research" "redo it").2.step_status
      "deep_research" = "refining" ∧
    (refine_step sampleAwaiting "deep_research" "redo it").2 =
      (refine_step sampleAwaiting "deep_research" "entirely different feedback").2 := by
  refine ⟨rfl, by decide, rfl, by decide, rfl⟩

/-- C4 amended: `refine(stageName, feedback)` is rejected only when
`stageName` is not a known step name (it is NOT required to be the stage at
the cursor); for any known stage name it deletes the stored output, sets
that stage's status to `"refining"`, clears `awaitingReview`, leaves the
cursor and every other stage untouched, and the resulting state is
independent of the feedback (the feedback is only echoed in the response,
not threaded into the next execution). -/
theorem refine_behavior (s : WorkflowState) (step_name feedback : String) :
    (step_name ∉ ALL_STEPS →
      refine_step s step_name feedback =
        (Except.error ⟨400, "Invalid step: " ++ step_name⟩, s)) ∧
    (step_name ∈ ALL_STEPS →
      (refine_step s step_name feedback).1 = Except.ok ⟨step_name, feedback⟩ ∧
      (refine_step s step_name feedback).2.step_status step_name = "refining" ∧
      (refine_step s step_name feedback).2.step_outputs step_name = none ∧
      (refine_step s step_name feedback).2.awaiting_review = false ∧
      (refine_step s step_name feedback).2.current_step = s.current_step ∧
      (∀ t, t ≠ step_name →
        (refine_step s step_name feedback).2.step_status t = s.step_status t ∧
        (refine_step s step_name feedback).2.step_outputs t = s.step_outputs t) ∧
      (refine_step s step_name feedback).2 =
        (refine_step s step_name "").2) := by
  constructor
  · intro hnot
    unfold refine_step
    rw [if_pos hnot]
  · intro hmem
    have hmem' : ¬ step_name ∉ ALL_STEPS := by simp [hmem]
    unfold refine_step
    rw [if_neg hmem', if_neg hmem']
    refine ⟨rfl, by simp, by simp, rfl, rfl, ?_, rfl⟩
    intro t ht
    exact ⟨by simp [ht], by simp [ht]⟩

/-- Witness for C4's amended theorem at a concrete state and stage. -/
theorem refine_behavior_witness :
    "risk_scanner" ∈ ALL_STEPS ∧
    (refine_step sampleAwaiting "risk_scanner" "fb").2.step_status
      "risk_scanner" = "refining" ∧
    (refine_step sampleAwaiting "risk_scanner" "fb").2.step_outputs
      "risk_scanner" = none :=
  ⟨by decide,
   ((refine_behavior sampleAwaiting "risk_scanner" "fb").2 (by decide)).2.1,
   ((refine_behavior sampleAwaiting "risk_scanner" "fb").2 (by decide)).2.2.1⟩

/-! ### Event classification helpers -/

/-- Is this event a `chunk`? -/
def Event.isChunk : Event → Bool
  | .chunk _ => true
  | _ => false

/-- Is this event a `status`? -/
def Event.isStatus : Event → Bool
  | .status _ => true
  | _ => false

/-- Is this event a `step_complete`? -/
def Event.isStepComplete : Event → Bool
  | .step_complete _ _ _ => true
  | _ => false

/-- Is this event terminal for its stage (`step_complete` or `error`)? -/
def Event.isTerminal : Event → Bool
  | .step_complete _ _ _ => true
  | .error _ _ => true
  | _ => false

/-- The single terminal event of an uncancelled stream run of a dispatched
stage, as a function of the executor outcome. -/
def terminalEvent (step : String) : ExecResult → Event
  | .success (some o) => .step_complete step true (some (output_preview o))
  | .success none => .step_complete step true none
  | .raise msg => .error step msg

theorem countP_map_chunk (p : Event → Bool) (hp : ∀ c, p (Event.chunk c) = false)
    (l : List String) : (l.map Event.chunk).countP p = 0 := by
  induction l with
  | nil => rfl
  | cons a l ih => simp [List.countP_cons, hp, ih]

/-! ### C5 - executor exception never sets a failed status (corrected) -/

/-- Counterexample to C5 as stated: on a fresh workflow whose current stage
is `deep_research`, an executor exception leaves that stage's status at
`"pending"` - the code has no path assigning `"failed"` - even though the
`error` event is duly published as the terminal event. -/
theorem executor_exception_not_failed :
    (stream_step_run (WorkflowState.init 0 true false) ["partial"]
        (.raise "boom")).2.step_status "deep_research" = "pending" ∧
    (stream_step_run (WorkflowState.init 0 true false) ["partial"]
        (.raise "boom")).2.step_status "deep_research" ≠ "failed" ∧
    (stream_step_run (WorkflowState.init 0 true false) ["partial"]
        (.raise "boom")).1.getLast? = some (Event.error "deep_research" "boom") := by
  refine ⟨by decide, by decide, by decide⟩

/-- C5 amended: on an exception from the Step Executor the engine leaves
the whole workflow state untouched - in particular the stage's status is
not changed (never set to `"failed"`), `awaitingReview` is not set and the
cursor does not advance - and publishes, after the `status` event and the
chunks, an `error` event as the terminal event; no `step_complete` event is
emitted. -/
theorem executor_exception_behavior (s : WorkflowState) (frags : List String)
    (msg : String) (h : s.get_current_step_name ∈ ALL_STEPS) :
    (stream_step_run s frags (.raise msg)).2 = s ∧
    (stream_step_run s frags (.raise msg)).2.awaiting_review = s.awaiting_review ∧
    (stream_step_run s frags (.raise msg)).2.current_step = s.current_step ∧
    (stream_step_run s frags (.raise msg)).1 =
      Event.status s.get_current_step_name ::
        (frags.map Event.chunk ++ [Event.error s.get_current_step_name msg]) ∧
    ((stream_step_run s frags (.raise msg)).1.all
      fun ev => !ev.isStepComplete) = true := by
  have hrun : stream_step_run s frags (.raise msg) =
      (Event.status s.get_current_step_name ::
        (frags.map Event.chunk ++ [Event.error s.get_current_step_name msg]), s) := by
    unfold stream_step_run
    rw [if_pos h]
  rw [hrun]
  refine ⟨rfl, rfl, rfl, rfl, ?_⟩
  simp only [List.all_cons, List.all_append]
  have hchunks : (frags.map Event.chunk).all (fun ev => !ev.isStepComplete) = true := by
    induction frags with
    | nil => rfl
    | cons a l ih => simp [Event.isStepComplete, ih]
  simp [hchunks, Event.isStepComplete, Event.isStatus]

/-- Witness for C5's amended theorem at a concrete state. -/
theorem executor_exception_behavior_witness :
    (WorkflowState.init 0 true false).get_current_step_name ∈ ALL_STEPS ∧
    (stream_step_run (WorkflowState.init 0 true false) ["a", "b"]
        (.raise "oops")).2 = WorkflowState.init 0 true false ∧
    (stream_step_run (WorkflowState.init 0 true false) ["a", "b"]
        (.raise "oops")).1 =
      Event.status (WorkflowState.init 0 true false).get_current_step_name ::
        (["a", "b"].map Event.chunk ++
          [Event.error (WorkflowState.init 0 true false).get_current_step_name "oops"]) :=
  ⟨by decide,
   (executor_exception_behavior (WorkflowState.init 0 true false) ["a", "b"]
      "oops" (by decide)).1,
   (executor_exception_behavior (WorkflowState.init 0 true false) ["a", "b"]
      "oops" (by decide)).2.2.2.1⟩

/-! ### C8 - per-stage event ordering -/

/-- C8: for every uncancelled run of a dispatched stage that pushes
fragments `f1..fn` before finishing, the emitted event sequence is exactly
one `status` event, then the `chunk` events in emission order, then exactly
one terminal event (`step_complete` on return, `error` on exception):
the stream contains exactly one `status` and exactly one terminal event,
no chunk after the terminal event and no event before the `status`. -/
theorem stream_event_order (s : WorkflowState) (frags : List String)
    (res : ExecResult) (h : s.get_current_step_name ∈ ALL_STEPS) :
    (stream_step_run s frags res).1 =
      Event.status s.get_current_step_name ::
        (frags.map Event.chunk ++ [terminalEvent s.get_current_step_name res]) ∧
    (terminalEvent s.get_current_step_name res).isTerminal = true ∧
    ((stream_step_run s frags res).1.countP fun ev => ev.isStatus) = 1 ∧
    ((stream_step_run s frags res).1.countP fun ev => ev.isTerminal) = 1 := by
  have hshape : (stream_step_run s frags res).1 =
      Event.status s.get_current_step_name ::
        (frags.map Event.chunk ++ [terminalEvent s.get_current_step_name res]) := by
    unfold stream_step_run terminalEvent
    rw [if_pos h]
    match res with
    | .success (some o) => rfl
    | .success none => rfl
    | .raise msg => rfl
  have hterm : (terminalEvent s.get_current_step_name res).isTerminal = true := by
    unfold terminalEvent Event.isTerminal
    match res with
    | .success (some o) => rfl
    | .success none => rfl
    | .raise msg => rfl
  have hterm_not_status : (terminalEvent s.get_current_step_name res).isStatus = false := by
    unfold terminalEvent Event.isStatus
    match res with
    | .success (some o) => rfl
    | .success none => rfl
    | .raise msg => rfl
  have hstatus_yes : Event.isStatus (Event.status s.get_current_step_name) = true := rfl
  have hstatus_not_term :
      Event.isTerminal (Event.status s.get_current_step_name) = false := rfl
  refine ⟨hshape, hterm, ?_, ?_⟩
  · rw [hshape]
    rw [List.countP_cons, List.countP_append,
      countP_map_chunk (fun ev => ev.isStatus) (fun c => rfl),
      List.countP_cons, List.countP_nil]
    simp [hstatus_yes, hterm_not_status]
  · rw [hshape]
    rw [List.countP_cons, List.countP_append,
      countP_map_chunk (fun ev => ev.isTerminal) (fun c => rfl),
      List.countP_cons, List.countP_nil]
    simp [hstatus_not_term, hterm]

/-- Witness for C8 at a concrete three-fragment successful run. -/
theorem stream_event_order_witness :
    (WorkflowState.init 0 true false).get_current_step_name ∈ ALL_STEPS ∧
    (stream_step_run (WorkflowState.init 0 true false) ["f1", "f2", "f3"]
        (.success (some "report"))).1 =
      Event.status (WorkflowState.init 0 true false).get_current_step_name ::
        (["f1", "f2", "f3"].map Event.chunk ++
          [terminalEvent (WorkflowState.init 0 true false).get_current_step_name
            (.success (some "report"))]) :=
  ⟨by decide,
   (stream_event_order (WorkflowState.init 0 true false) ["f1", "f2", "f3"]
      (.success (some "report")) (by decide)).1⟩

/-! ### C10 - falsy executor result: state untouched, step_complete lies -/

/-- C10: when the Step Executor returns a falsy result, the stream endpoint
leaves the whole workflow state untouched - no entry is stored in
`step_outputs`, the stage's status is not set to `"completed"`, and
`awaitingReview` stays false when it was false - yet it still emits a
`step_complete` terminal event whose payload hard-codes
`awaiting_review := true`, so the event stream and the stored state
disagree. -/
theorem falsy_result_mismatch (s : WorkflowState) (frags : List String)
    (h : s.get_current_step_name ∈ ALL_STEPS) (har : s.awaiting_review = false) :
    (stream_step_run s frags (.success none)).2 = s ∧
    (stream_step_run s frags (.success none)).2.step_outputs
      s.get_current_step_name = s.step_outputs s.get_current_step_name ∧
    (stream_step_run s frags (.success none)).2.step_status
      s.get_current_step_name = s.step_status s.get_current_step_name ∧
    (stream_step_run s frags (.success none)).2.awaiting_review = false ∧
    (stream_step_run s frags (.success none)).1.getLast? =
      some (Event.step_complete s.get_current_step_name true none) := by
  have hrun : stream_step_run s frags (.success none) =
      (Event.status s.get_current_step_name ::
        (frags.map Event.chunk ++
          [Event.step_complete s.get_current_step_name true none]), s) := by
    unfold stream_step_run
    rw [if_pos h]
  rw [hrun]
  refine ⟨rfl, rfl, rfl, har, ?_⟩
  rw [show Event.status s.get_current_step_name ::
      (frags.map Event.chunk ++
        [Event.step_complete s.get_current_step_name true none]) =
      (Event.status s.get_current_step_name :: frags.map Event.chunk) ++
        [Event.step_complete s.get_current_step_name true none] from rfl]
  exact List.getLast?_concat _

/-- Witness for C10 at a concrete run returning a falsy output. -/
theorem falsy_result_mismatch_witness :
    (WorkflowState.init 0 true false).get_current_step_name ∈ ALL_STEPS ∧
    (WorkflowState.init 0 true false).awaiting_review = false ∧
    (stream_step_run (WorkflowState.init 0 true false) ["x"]
        (.success none)).2 = WorkflowState.init 0 true false ∧
    (stream_step_run (WorkflowState.init 0 true false) ["x"]
        (.success none)).1.getLast? =
      some (Event.step_complete
        (WorkflowState.init 0 true false).get_current_step_name true none) :=
  ⟨by decide, rfl,
   (falsy_result_mismatch (WorkflowState.init 0 true false) ["x"]
      (by decide) rfl).1,
   (falsy_result_mismatch (WorkflowState.init 0 true false) ["x"]
      (by decide) rfl).2.2.2.2⟩

/-! ### C3 - the output/status invariant (corrected) -/

/-- The half of the spec's invariant that the code maintains: every stage
whose status is `"completed"` has a stored output. -/
def CompletedHasOutput (s : WorkflowState) : Prop :=
  ∀ t, s.step_status t = "completed" → (s.step_outputs t).isSome = true

theorem completedHasOutput_init (files : Nat) (rdr rdrm : Bool) :
    CompletedHasOutput (WorkflowState.init files rdr rdrm) := by
  intro t ht
  unfold WorkflowState.init at ht
  dsimp only at ht
  split at ht
  · exact absurd ht (by decide)
  · split at ht
    · exact absurd ht (by decide)
    · exact absurd ht (by decide)

theorem completedHasOutput_storeOutput (s : WorkflowState) (name : String)
    (o : Output) (hs : CompletedHasOutput s) :
    CompletedHasOutput (storeOutput s name o) := by
  intro t ht
  unfold storeOutput at ht ⊢
  dsimp only at ht ⊢
  by_cases h : t = name
  · simp [h]
  · simp only [if_neg h] at ht ⊢
    exact hs t ht

theorem completedHasOutput_stream (s : WorkflowState) (frags : List String)
    (res : ExecResult) (hs : CompletedHasOutput s) :
    CompletedHasOutput (stream_step_run s frags res).2 := by
  unfold stream_step_run
  dsimp only
  split
  · cases res with
    | success out =>
      cases out with
      | some o => exact completedHasOutput_storeOutput s _ o hs
      | none => exact hs
    | raise msg => exact hs
  · exact hs

theorem completedHasOutput_continue (s : WorkflowState)
    (hs : CompletedHasOutput s) : CompletedHasOutput (continue_workflow s).2 := by
  unfold continue_workflow
  dsimp only
  split
  · exact hs
  · split
    · exact hs
    · exact hs

theorem completedHasOutput_refine (s : WorkflowState) (name feedback : String)
    (hs : CompletedHasOutput s) :
    CompletedHasOutput (refine_step s name feedback).2 := by
  unfold refine_step
  dsimp only
  split
  · exact hs
  · intro t ht
    dsimp only at ht ⊢
    by_cases h : t = name
    · rw [if_pos h] at ht
      exact absurd ht (by decide)
    · rw [if_neg h] at ht
      rw [if_neg h]
      exact hs t ht

theorem completedHasOutput_skip (s : WorkflowState) (name : String)
    (hs : CompletedHasOutput s) : CompletedHasOutput (skip_step s name).2 := by
  unfold skip_step
  dsimp only
  split
  · exact hs
  · intro t ht
    dsimp only at ht ⊢
    by_cases h : t = name
    · rw [if_pos h] at ht
      exact absurd ht (by decide)
    · rw [if_neg h] at ht
      exact hs t ht

theorem completedHasOutput_cancel (s : WorkflowState)
    (hs : CompletedHasOutput s) : CompletedHasOutput (cancel_workflow s).2 := by
  unfold cancel_workflow
  dsimp only
  split
  · intro t ht
    dsimp only at ht ⊢
    by_cases h : t = WorkflowState.get_current_step_name
        { s with cancelled := true, awaiting_review := false }
    · rw [if_pos h] at ht
      exact absurd ht (by decide)
    · rw [if_neg h] at ht
      exact hs t ht
  · exact hs

theorem completedHasOutput_applyOp (s : WorkflowState) (op : WfOp)
    (hs : CompletedHasOutput s) : CompletedHasOutput (applyOp s op) := by
  cases op with
  | completeStage frags res => exact completedHasOutput_stream s frags res hs
  | opContinue => exact completedHasOutput_continue s hs
  | opRefine name fb => exact completedHasOutput_refine s name fb hs
  | opSkip name => exact completedHasOutput_skip s name hs
  | opCancel => exact completedHasOutput_cancel s hs

theorem completedHasOutput_runOps (ops : List WfOp) :
    ∀ (s : WorkflowState), CompletedHasOutput s →
      CompletedHasOutput (runOps s ops) := by
  induction ops with
  | nil => intro s hs; exact hs
  | cons op rest ih =>
    intro s hs
    exact ih (applyOp s op) (completedHasOutput_applyOp s op hs)

/-- Counterexample to C3 as stated: a completed stage can be skipped (or
cancelled) afterwards - the code checks neither status nor review flag -
leaving its stored output in place under a non-`"completed"` status, so
"output exists iff status completed" fails in a reachable state. Here
`deep_research` completes with a stored report, then `skip` of the still-
current `deep_research` succeeds: the output persists while the status is
`"skipped"`. -/
theorem output_without_completed_status :
    ((runOps (WorkflowState.init 0 true false)
        [WfOp.completeStage [] (.success (some "report")),
         WfOp.opSkip "deep_research"]).step_outputs "deep_research").isSome = true ∧
    (runOps (WorkflowState.init 0 true false)
        [WfOp.completeStage [] (.success (some "report")),
         WfOp.opSkip "deep_research"]).step_status "deep_research" = "skipped" ∧
    (runOps (WorkflowState.init 0 true false)
        [WfOp.completeStage [] (.success (some "report")),
         WfOp.opSkip "deep_research"]).step_status "deep_research" ≠ "completed" := by
  refine ⟨by decide, by decide, by decide⟩

/-- C3 amended: in every reachable workflow state (any operation sequence
from any freshly created workflow), a stage whose status is `"completed"`
has an entry in `step_outputs`. The converse direction of the spec's "iff"
is refuted: skip and cancel of an already-completed stage leave its output
stored under a non-completed status. -/
theorem reachable_completed_has_output (files : Nat) (rdr rdrm : Bool)
    (ops : List WfOp) (t : String)
    (h : (runOps (WorkflowState.init files rdr rdrm) ops).step_status t =
      "completed") :
    ((runOps (WorkflowState.init files rdr rdrm) ops).step_outputs t).isSome =
      true :=
  completedHasOutput_runOps ops (WorkflowState.init files rdr rdrm)
    (completedHasOutput_init files rdr rdrm) t h

/-- Witness for C3's amended theorem: after completing `deep_research`, its
status is `"completed"` and the theorem yields the stored output. -/
theorem reachable_completed_has_output_witness :
    (runOps (WorkflowState.init 0 true false)
        [WfOp.completeStage [] (.success (some "r"))]).step_status
      "deep_research" = "completed" ∧
    ((runOps (WorkflowState.init 0 true false)
        [WfOp.completeStage [] (.success (some "r"))]).step_outputs
      "deep_research").isSome = true :=
  ⟨by decide,
   reachable_completed_has_output 0 true false
     [WfOp.completeStage [] (.success (some "r"))] "deep_research" (by decide)⟩

/-! ### C9 - pre-skipped stages and the fixed stage sequence -/

theorem applyOp_steps (s : WorkflowState) (op : WfOp) :
    (applyOp s op).steps = s.steps := by
  cases op with
  | completeStage frags res =>
    show (stream_step_run s frags res).2.steps = s.steps
    unfold stream_step_run
    dsimp only
    split
    · cases res with
      | success out =>
        cases out with
        | some o => rfl
        | none => rfl
      | raise msg => rfl
    · rfl
  | opContinue =>
    show (continue_workflow s).2.steps = s.steps
    unfold continue_workflow
    dsimp only
    split
    · rfl
    · split <;> rfl
  | opRefine name fb =>
    show (refine_step s name fb).2.steps = s.steps
    unfold refine_step
    dsimp only
    split <;> rfl
  | opSkip name =>
    show (skip_step s name).2.steps = s.steps
    unfold skip_step
    dsimp only
    split <;> rfl
  | opCancel =>
    show (cancel_workflow s).2.steps = s.steps
    unfold cancel_workflow
    dsimp only
    split <;> rfl

theorem runOps_steps (ops : List WfOp) :
    ∀ (s : WorkflowState), (runOps s ops).steps = s.steps := by
  induction ops with
  | nil => intro s; rfl
  | cons op rest ih =>
    intro s
    calc (runOps (applyOp s op) rest).steps
        = (applyOp s op).steps := ih (applyOp s op)
      _ = s.steps := applyOp_steps s op

/-- No code path ever assigns the status `"running"`. -/
def NoRunningStatus (s : WorkflowState) : Prop :=
  ∀ t, s.step_status t ≠ "running"

theorem noRunning_init (files : Nat) (rdr rdrm : Bool) :
    NoRunningStatus (WorkflowState.init files rdr rdrm) := by
  intro t
  unfold WorkflowState.init
  dsimp only
  split
  · decide
  · split
    · decide
    · decide

theorem noRunning_applyOp (s : WorkflowState) (op : WfOp)
    (hs : NoRunningStatus s) : NoRunningStatus (applyOp s op) := by
  cases op with
  | completeStage frags res =>
    show NoRunningStatus (stream_step_run s frags res).2
    unfold stream_step_run
    dsimp only
    split
    · cases res with
      | success out =>
        cases out with
        | some o =>
          intro t
          unfold storeOutput
          dsimp only
          by_cases h : t = s.get_current_step_name
          · rw [if_pos h]; decide
          · rw [if_neg h]; exact hs t
        | none => exact hs
      | raise msg => exact hs
    · exact hs
  | opContinue =>
    show NoRunningStatus (continue_workflow s).2
    unfold continue_workflow
    dsimp only
    split
    · exact hs
    · split
      · exact hs
      · exact hs
  | opRefine name fb =>
    show NoRunningStatus (refine_step s name fb).2
    unfold refine_step
    dsimp only
    split
    · exact hs
    · intro t
      dsimp only
      by_cases h : t = name
      · rw [if_pos h]; decide
      · rw [if_neg h]; exact hs t
  | opSkip name =>
    show NoRunningStatus (skip_step s name).2
    unfold skip_step
    dsimp only
    split
    · exact hs
    · intro t
      dsimp only
      by_cases h : t = name
      · rw [if_pos h]; decide
      · rw [if_neg h]; exact hs t
  | opCancel =>
    show NoRunningStatus (cancel_workflow s).2
    unfold cancel_workflow
    dsimp only
    split
    · intro t
      dsimp only
      by_cases h : t = WorkflowState.get_current_step_name
          { s with cancelled := true, awaiting_review := false }
      · rw [if_pos h]; decide
      · rw [if_neg h]; exact hs t
    · exact hs

theorem noRunning_runOps (ops : List WfOp) :
    ∀ (s : WorkflowState), NoRunningStatus s →
      NoRunningStatus (runOps s ops) := by
  induction ops with
  | nil => intro s hs; exact hs
  | cons op rest ih =>
    intro s hs
    exact ih (applyOp s op) (noRunning_applyOp s op hs)

/-- C9: a workflow created with `data_room` selected but no uploaded
documents never places `data_room` in its stage sequence and marks it
`"skipped"` (not `"pending"`) immediately; the stage sequence never changes
under any later operations, and `data_room` never enters `"running"` (no
reachable state gives it status `"running"`). `risk_scanner` and `ic_memo`
are always in the stage sequence, whatever selection was made. -/
theorem start_skips_unmet_and_sequence_fixed :
    (∀ (rdr : Bool) (ops : List WfOp),
      "data_room" ∉ (WorkflowState.init 0 rdr true).steps ∧
      (WorkflowState.init 0 rdr true).step_status "data_room" = "skipped" ∧
      (runOps (WorkflowState.init 0 rdr true) ops).steps =
        (WorkflowState.init 0 rdr true).steps ∧
      (runOps (WorkflowState.init 0 rdr true) ops).step_status "data_room" ≠
        "running") ∧
    (∀ (files : Nat) (rdr rdrm : Bool),
      "risk_scanner" ∈ (WorkflowState.init files rdr rdrm).steps ∧
      "ic_memo" ∈ (WorkflowState.init files rdr rdrm).steps) := by
  constructor
  · intro rdr ops
    refine ⟨?_, ?_, runOps_steps ops _,
      noRunning_runOps ops _ (noRunning_init 0 rdr true) "data_room"⟩
    · cases rdr <;> decide
    · cases rdr <;> decide
  · intro files rdr rdrm
    have hrs : "risk_scanner" ∈ (["risk_scanner", "ic_memo"] : List String) := by
      decide
    have him : "ic_memo" ∈ (["risk_scanner", "ic_memo"] : List String) := by
      decide
    constructor
    · unfold WorkflowState.init
      dsimp only
      exact List.mem_append_right _ hrs
    · unfold WorkflowState.init
      dsimp only
      exact List.mem_append_right _ him

/-- Witness for C9 at a concrete creation (no files, both optional stages
selected) and a concrete operation sequence. -/
theorem start_skips_unmet_and_sequence_fixed_witness :
    "data_room" ∉ (WorkflowState.init 0 true true).steps ∧
    (WorkflowState.init 0 true true).step_status "data_room" = "skipped" ∧
    (runOps (WorkflowState.init 0 true true) [WfOp.opCancel]).steps =
      (WorkflowState.init 0 true true).steps ∧
    (runOps (WorkflowState.init 0 true true) [WfOp.opCancel]).step_status
      "data_room" ≠ "running" ∧
    "risk_scanner" ∈ (WorkflowState.init 0 true true).steps ∧
    "ic_memo" ∈ (WorkflowState.init 0 true true).steps :=
  ⟨(start_skips_unmet_and_sequence_fixed.1 true [WfOp.opCancel]).1,
   (start_skips_unmet_and_sequence_fixed.1 true [WfOp.opCancel]).2.1,
   (start_skips_unmet_and_sequence_fixed.1 true [WfOp.opCancel]).2.2.1,
   (start_skips_unmet_and_sequence_fixed.1 true [WfOp.opCancel]).2.2.2,
   (start_skips_unmet_and_sequence_fixed.2 0 true true).1,
   (start_skips_unmet_and_sequence_fixed.2 0 true true).2⟩

/-! ### C6 - cancellation and the late-result race (corrected) -/

theorem cancel_workflow_outputs (s : WorkflowState) :
    ((cancel_workflow s).2).step_outputs = s.step_outputs := by
  unfold cancel_workflow
  dsimp only
  split <;> rfl

theorem cancel_workflow_cancelled (s : WorkflowState) :
    ((cancel_workflow s).2).cancelled = true := by
  unfold cancel_workflow
  dsimp only
  split <;> rfl

theorem cancel_workflow_marks_current (s : WorkflowState)
    (h : s.get_current_step_name ≠ "completed") :
    ((cancel_workflow s).2).step_status s.get_current_step_name = "cancelled" := by
  have hcur : WorkflowState.get_current_step_name
      { s with cancelled := true, awaiting_review := false } =
      s.get_current_step_name := rfl
  unfold cancel_workflow
  dsimp only
  rw [if_pos (by rw [hcur]; exact h)]
  dsimp only
  rw [if_pos hcur.symm]

/-- Invariant for the amended C6: the workflow is cancelled and the
consumer is polling (so it will observe the flag) or already finished. -/
def CancelledIdle (c : StreamConfig) : Prop :=
  c.wf.cancelled = true ∧
    ((∃ p, c.phase = CPhase.looping p) ∨ c.phase = CPhase.finished)

theorem cancelledIdle_step (c : StreamConfig) (a : StreamAct)
    (h : CancelledIdle c) :
    CancelledIdle (streamStep c a).1 ∧
    (∀ t, (streamStep c a).1.wf.step_outputs t = c.wf.step_outputs t) ∧
    ((streamStep c a).2.all fun ev => !ev.isChunk && !ev.isStepComplete) = true := by
  obtain ⟨wf, sn, res, ph⟩ := c
  obtain ⟨hc, hph⟩ := h
  cases a with
  | cancelEnv =>
    refine ⟨⟨cancel_workflow_cancelled wf, hph⟩, ?_, rfl⟩
    intro t
    exact congrFun (cancel_workflow_outputs wf) t
  | consume =>
    rcases hph with ⟨p, hp⟩ | hfin
    · cases hp
      have hstep : streamStep ⟨wf, sn, res, CPhase.looping p⟩ StreamAct.consume =
          (⟨wf, sn, res, CPhase.finished⟩,
            [Event.error sn "Workflow cancelled by user"]) := by
        unfold streamStep
        rw [hc]
        rfl
      rw [hstep]
      exact ⟨⟨hc, Or.inr rfl⟩, fun t => rfl, rfl⟩
    · cases hfin
      exact ⟨⟨hc, Or.inr rfl⟩, fun t => rfl, rfl⟩

theorem cancelledIdle_run (acts : List StreamAct) :
    ∀ (c : StreamConfig), CancelledIdle c →
      CancelledIdle (runStream c acts).1 ∧
      (∀ t, (runStream c acts).1.wf.step_outputs t = c.wf.step_outputs t) ∧
      ((runStream c acts).2.all fun ev => !ev.isChunk && !ev.isStepComplete) = true := by
  induction acts with
  | nil => intro c h; exact ⟨h, fun t => rfl, rfl⟩
  | cons a rest ih =>
    intro c h
    obtain ⟨h1, h2, h3⟩ := cancelledIdle_step c a h
    obtain ⟨g1, g2, g3⟩ := ih (streamStep c a).1 h1
    refine ⟨g1, ?_, ?_⟩
    · intro t
      exact (g2 t).trans (h2 t)
    · show (((streamStep c a).2 ++ (runStream (streamStep c a).1 rest).2).all
        fun ev => !ev.isChunk && !ev.isStepComplete) = true
      rw [List.all_append, h3, g3]
      rfl

/-- The race configuration: the consumer of a fresh `deep_research` run has
consumed all fragments (`pending = []`) and the worker result is in
flight. -/
def raceCfg : StreamConfig :=
  { wf := WorkflowState.init 0 true false
    step_name := (WorkflowState.init 0 true false).get_current_step_name
    res := .success (some "late result")
    phase := .looping [] }

/-- Counterexample to C6 as stated: the consumer checks `cancelled` only at
the top of the polling loop, not between consuming the completion sentinel
and storing the result. Schedule: the consumer consumes the sentinel
(moving past the `break`), then `cancel` is served - flag set, no output
stored, stage marked `"cancelled"` - and then the consumer's next step
writes the late worker result into `step_outputs` anyway, overwrites the
stage status with `"completed"` and even re-sets `awaitingReview`. -/
theorem cancelled_late_result_stored :
    (runStream raceCfg [StreamAct.consume, StreamAct.cancelEnv]).1.wf.cancelled =
      true ∧
    (runStream raceCfg [StreamAct.consume, StreamAct.cancelEnv]).1.wf.step_outputs
      "deep_research" = none ∧
    (runStream raceCfg [StreamAct.consume, StreamAct.cancelEnv]).1.wf.step_status
      "deep_research" = "cancelled" ∧
    (runStream raceCfg
      [StreamAct.consume, StreamAct.cancelEnv, StreamAct.consume]).1.wf.step_outputs
      "deep_research" = some "late result" ∧
    (runStream raceCfg
      [StreamAct.consume, StreamAct.cancelEnv, StreamAct.consume]).1.wf.step_status
      "deep_research" = "completed" ∧
    (runStream raceCfg
      [StreamAct.consume, StreamAct.cancelEnv, StreamAct.consume]).1.wf.awaiting_review =
      true := by
  refine ⟨by decide, by decide, by decide, by decide, by decide, by decide⟩

/-- C6 amended: when the `cancelled` flag is set while the consumer is
still polling the stream queue (the only point where the code re-checks
it), the rest of the run publishes no further `chunk` and no
`step_complete` event and never writes anything into `step_outputs` - the
late worker result is discarded - and `cancel` marks the stage current at
cancellation `"cancelled"`. (A cancel that lands after the sentinel has
been consumed but before the output is stored is not observed, as the
counterexample shows.) -/
theorem cancel_observed_while_polling_discards (c : StreamConfig)
    (p : List String) (acts : List StreamAct)
    (hph : c.phase = CPhase.looping p) (hc : c.wf.cancelled = true) :
    (∀ t, (runStream c acts).1.wf.step_outputs t = c.wf.step_outputs t) ∧
    ((runStream c acts).2.all fun ev => !ev.isChunk && !ev.isStepComplete) = true ∧
    (∀ s : WorkflowState, s.get_current_step_name ≠ "completed" →
      ((cancel_workflow s).2).step_status s.get_current_step_name = "cancelled") := by
  obtain ⟨-, h2, h3⟩ := cancelledIdle_run acts c ⟨hc, Or.inl ⟨p, hph⟩⟩
  exact ⟨h2, h3, fun s hs => cancel_workflow_marks_current s hs⟩

/-- A concrete already-cancelled polling configuration for the witness. -/
def cancelledCfg : StreamConfig :=
  { wf := (cancel_workflow (WorkflowState.init 0 true false)).2
    step_name := "deep_research"
    res := .success (some "late result")
    phase := .looping ["x"] }

/-- Witness for C6's amended theorem: from a cancelled polling
configuration, two further consumer steps store nothing. -/
theorem cancel_observed_while_polling_discards_witness :
    cancelledCfg.phase = CPhase.looping ["x"] ∧
    cancelledCfg.wf.cancelled = true ∧
    (runStream cancelledCfg
        [StreamAct.consume, StreamAct.consume]).1.wf.step_outputs
      "deep_research" = cancelledCfg.wf.step_outputs "deep_research" ∧
    ((runStream cancelledCfg [StreamAct.consume, StreamAct.consume]).2.all
      fun ev => !ev.isChunk && !ev.isStepComplete) = true :=
  ⟨rfl, by decide,
   (cancel_observed_while_polling_discards cancelledCfg ["x"]
      [StreamAct.consume, StreamAct.consume] rfl (by decide)).1 "deep_research",
   (cancel_observed_while_polling_discards cancelledCfg ["x"]
      [StreamAct.consume, StreamAct.consume] rfl (by decide)).2.1⟩

end DealCopilot
